import Mathlib

/-!
Verification development for the gitlens localization toolchain.

The embedding models the two components of the repository:

* `src/scripts/webpack/LocalizationPlugin.mjs` — the source substitution
  engine (`replaceStrings`, `hasChineseIdentifier`, the `apply` asset hook);
* `src/scripts/injectLocalization.mts` — the manifest translator
  (`injectLocalization`).

Text is modelled as `List Char` (a JS string; all characters involved are
BMP scalars, where UTF-16 code units and scalar values coincide).
-/

/-- Shorthand for a character given by its code point. -/
def chr (n : Nat) : Char := Char.ofNat n

/-- Character class `[一-龥]` used by all three corruption
signatures in `hasChineseIdentifier` (LocalizationPlugin.mjs:157-165). -/
def isCJK (c : Char) : Bool := decide (0x4e00 ≤ c.toNat ∧ c.toNat ≤ 0x9fa5)

/-- JavaScript regex class `\s`: tab, LF, VT, FF, CR, space, NBSP, and the
Unicode space separators recognised by ECMAScript. -/
def isJsSpace (c : Char) : Bool :=
  decide (c.toNat = 0x9 ∨ c.toNat = 0xa ∨ c.toNat = 0xb ∨ c.toNat = 0xc ∨
    c.toNat = 0xd ∨ c.toNat = 0x20 ∨ c.toNat = 0xa0 ∨ c.toNat = 0x1680 ∨
    (0x2000 ≤ c.toNat ∧ c.toNat ≤ 0x200a) ∨ c.toNat = 0x2028 ∨
    c.toNat = 0x2029 ∨ c.toNat = 0x202f ∨ c.toNat = 0x205f ∨
    c.toNat = 0x3000 ∨ c.toNat = 0xfeff)

/-- Does the list start with the given pattern of characters? -/
def startsWithList : List Char → List Char → Bool
  | _, [] => true
  | [], _ :: _ => false
  | c :: cs, p :: ps => decide (c = p) && startsWithList cs ps

/-- The declaration keywords of the regex
`(?:export|import|class|function|const|let|var)` in
`hasChineseIdentifier` (LocalizationPlugin.mjs:157). -/
def declKeywords : List (List Char) :=
  [("export".data), ("import".data), ("class".data), ("function".data),
   ("const".data), ("let".data), ("var".data)]

/-- After skipping zero or more `\s` characters, is the next character CJK?
Used to decide a match of `\s+[一-龥]` after its first space. -/
def afterSpacesCJK : List Char → Bool
  | [] => false
  | c :: rest => if isJsSpace c then afterSpacesCJK rest else isCJK c

/-- Match of `\s+[一-龥]` anchored at the head of the list.  The
CJK class is disjoint from `\s`, so a match exists exactly when the head is
a space and the first following non-space character is CJK. -/
def matchKwTail : List Char → Bool
  | [] => false
  | c :: rest => isJsSpace c && afterSpacesCJK rest

/-- Match, anchored at the head, of
`(?:export|import|class|function|const|let|var)\s+[一-龥]`
(first signature of `hasChineseIdentifier`, LocalizationPlugin.mjs:157). -/
def matchKwAt (l : List Char) : Bool :=
  declKeywords.any fun kw => startsWithList l kw && matchKwTail (l.drop kw.length)

/-- After skipping zero or more CJK characters, is the next character `:`
or `\s`?  Decides the tail of `[{.][一-龥]+[:\s]`: the terminator
class is disjoint from CJK, so it must follow the full CJK run. -/
def cjkRunColonSpace : List Char → Bool
  | [] => false
  | c :: rest =>
    if isCJK c then cjkRunColonSpace rest else (decide (c = chr 58) || isJsSpace c)

/-- Match, anchored at the head, of `[{.][一-龥]+[:\s]`
(second signature of `hasChineseIdentifier`, LocalizationPlugin.mjs:161). -/
def matchBraceDotAt : List Char → Bool
  | c1 :: c2 :: rest =>
    (decide (c1 = chr 123) || decide (c1 = chr 46)) && isCJK c2 && cjkRunColonSpace rest
  | _ => false

/-- After skipping zero or more `\s` characters, is the next character `(`?
Decides the tail `\s*\(`. -/
def spacesThenParen : List Char → Bool
  | [] => false
  | c :: rest => if isJsSpace c then spacesThenParen rest else decide (c = chr 40)

/-- After skipping zero or more CJK characters, does `\s*\(` follow?
The `(` and `\s` classes are disjoint from CJK, so the match must consume
the full CJK run. -/
def cjkRunSpacesParen : List Char → Bool
  | [] => false
  | c :: rest => if isCJK c then cjkRunSpacesParen rest else spacesThenParen (c :: rest)

/-- Match, anchored at the head, of `[一-龥]+\s*\(`
(third signature of `hasChineseIdentifier`, LocalizationPlugin.mjs:165). -/
def matchCJKParenAt : List Char → Bool
  | [] => false
  | c :: rest => isCJK c && cjkRunSpacesParen rest

/-- Embedding of `hasChineseIdentifier(code)`
(LocalizationPlugin.mjs:155-169): the disjunction of the three unanchored
regex tests, i.e. some suffix of the text matches one of the three
anchored signatures. -/
def hasChineseIdentifier : List Char → Bool
  | [] => false
  | c :: rest =>
    matchKwAt (c :: rest) || matchBraceDotAt (c :: rest) ||
      matchCJKParenAt (c :: rest) || hasChineseIdentifier rest

/-- Fuel-indexed global literal replacement.  Scans left to right; on a
match of `pat` it emits `rep` and resumes after the matched characters
(the replacement text is not rescanned), exactly the semantics of
JavaScript `String.replace` with a global regex that matches the literal
`pat`.  The fuel starts at the text length, which each step strictly
decreases below, so the `0` case is never reached from `replaceAll`. -/
def replaceAllAux (pat rep : List Char) : Nat → List Char → List Char
  | 0, s => s
  | _ + 1, [] => []
  | fuel + 1, c :: rest =>
    if pat.isEmpty then c :: rest
    else if startsWithList (c :: rest) pat then
      rep ++ replaceAllAux pat rep fuel (rest.drop (pat.length - 1))
    else
      c :: replaceAllAux pat rep fuel rest

/-- Global replacement of the literal `pat` by `rep`, the semantics of
`result.replace(new RegExp(escaped, 'g'), rep)` for an escaped literal
(the plugin only builds such regexes in its exact-match pass, and they are
never empty: they always include the two quote characters). -/
def replaceAll (pat rep s : List Char) : List Char :=
  replaceAllAux pat rep s.length s

/-- A literal wrapped in one quote character: the source of the regex
`` `${quote}${escapedEn}${quote}` `` (LocalizationPlugin.mjs:70). -/
def quotedPat (q : Char) (s : List Char) : List Char := q :: (s ++ [q])

/-- The three quote characters `"`, `'`, `` ` `` iterated by the
exact-match pass (LocalizationPlugin.mjs:68). -/
def quoteChars : List Char := [chr 34, chr 39, chr 96]

/-- One iteration of the `forEach(quoteChar => ...)` body
(LocalizationPlugin.mjs:68-78): replace `<q>en<q>` by `<q>zh<q>` in the
accumulated text; if that changed the text, record `replaced := true`. -/
def quotePass (en zh : List Char) (acc : List Char × Bool) (q : Char) :
    List Char × Bool :=
  if replaceAll (quotedPat q en) (quotedPat q zh) acc.1 = acc.1 then acc
  else (replaceAll (quotedPat q en) (quotedPat q zh) acc.1, true)

/-- Result of one `replaceStrings` call: the output text and the per-file
counters of accepted replacements and rollbacks. -/
structure SubstResult where
  text : List Char
  replacements : Nat
  rollbacks : Nat
deriving DecidableEq

/-- A pattern rule after the `new RegExp(pattern.match, 'g')` step.  The
JS regex engine is abstracted as an oracle: `invalid` models a `match`
field whose compilation throws (the `catch` path of
LocalizationPlugin.mjs:109-111 and 132-134), and `valid f` models a
compiled regex whose global `String.replace` with the rule's `replace`
template is the text transformer `f`. -/
inductive CompiledPattern where
  | invalid : CompiledPattern
  | valid : (List Char → List Char) → CompiledPattern

/-- The loaded translation map as used by `replaceStrings`: the
`webviews.exact` entries in insertion order, then the `webviews.patterns`
and `statusBar.patterns` sequences.  An absent section behaves exactly
like an empty one (the `?.` guard skips a loop over nothing), so each
section is a plain list. -/
structure L10nMap where
  exact : List (List Char × List Char)
  webviewPatterns : List CompiledPattern
  statusBarPatterns : List CompiledPattern

/-- The `forEach` over the three quote styles for one exact-match entry
(LocalizationPlugin.mjs:68-78), started from text `t` with
`replaced = false`: returns the resulting text and the `replaced` flag. -/
def exactAttempt (en zh t : List Char) : List Char × Bool :=
  quoteChars.foldl (quotePass en zh) (t, false)

/-- One iteration of the exact-match loop body
(LocalizationPlugin.mjs:59-88) on the running state: skip keys starting
with `_`; otherwise try the three quote styles, then apply the safety
guard — if the text was changed and now has a corruption signature that
the pre-step text lacked, revert to the pre-step text and count a
rollback; else count a replacement if the text was changed. -/
def exactEntryStep (st : SubstResult) (entry : List Char × List Char) : SubstResult :=
  if entry.1.head? = some (chr 95) then st
  else if (exactAttempt entry.1 entry.2 st.text).2 &&
      hasChineseIdentifier (exactAttempt entry.1 entry.2 st.text).1 &&
      !hasChineseIdentifier st.text then
    { st with rollbacks := st.rollbacks + 1 }
  else if (exactAttempt entry.1 entry.2 st.text).2 then
    { st with
        text := (exactAttempt entry.1 entry.2 st.text).1
        replacements := st.replacements + 1 }
  else
    { st with text := (exactAttempt entry.1 entry.2 st.text).1 }

/-- One iteration of a pattern loop body (LocalizationPlugin.mjs:93-112
and 117-135): an invalid regex is caught and skipped; a valid one is
applied globally, then the same safety guard reverts the step and counts
a rollback, or the step is counted as a replacement when it changed the
text. -/
def patternStep (st : SubstResult) (p : CompiledPattern) : SubstResult :=
  match p with
  | CompiledPattern.invalid => st
  | CompiledPattern.valid f =>
    if hasChineseIdentifier (f st.text) && !hasChineseIdentifier st.text then
      { st with rollbacks := st.rollbacks + 1 }
    else if f st.text ≠ st.text then
      { st with
          text := f st.text
          replacements := st.replacements + 1 }
    else st

/-- Pass 1 of `replaceStrings`: the exact-match loop over
`webviews.exact` (LocalizationPlugin.mjs:58-89). -/
def exactPass (m : L10nMap) (st : SubstResult) : SubstResult :=
  m.exact.foldl exactEntryStep st

/-- Pass 2 of `replaceStrings`: the pattern loop over `webviews.patterns`
(LocalizationPlugin.mjs:92-113). -/
def patternPassA (m : L10nMap) (st : SubstResult) : SubstResult :=
  m.webviewPatterns.foldl patternStep st

/-- Pass 3 of `replaceStrings`: the pattern loop over `statusBar.patterns`
(LocalizationPlugin.mjs:116-136). -/
def patternPassB (m : L10nMap) (st : SubstResult) : SubstResult :=
  m.statusBarPatterns.foldl patternStep st

/-- Embedding of `replaceStrings(source, filename)`
(LocalizationPlugin.mjs:48-150) with a loaded map: the three passes in
their fixed source order, threading the running text and counters. -/
def replaceStrings (m : L10nMap) (source : List Char) : SubstResult :=
  patternPassB m (patternPassA m (exactPass m ⟨source, 0, 0⟩))

/-- Eligibility test `/\.js$/.test(filename)` of the `processAssets` hook
(LocalizationPlugin.mjs:207): the filename ends with `.js`. -/
def isEligibleAsset (filename : List Char) : Bool :=
  startsWithList filename.reverse [chr 115, chr 106, chr 46]

/-- Per-asset body of the `processAssets` hook
(LocalizationPlugin.mjs:205-224): a filename that does not match the
suffix test is skipped (`continue`) and keeps its content; an eligible one
gets the `replaceStrings` output. -/
def processAsset (m : L10nMap) (filename content : List Char) : List Char :=
  if isEligibleAsset filename then (replaceStrings m content).text else content

/-- JavaScript truthiness of an optional string field: an absent field and
the empty string are falsy.  Returns the value when truthy. -/
def jsTruthy : Option (List Char) → Option (List Char)
  | some t => if t.isEmpty then none else some t
  | none => none

/-- Key lookup in a JS object modelled as an association list with unique
keys (the TranslationMap invariant). -/
def lookupAssoc {α : Type} (k : List Char) (l : List (List Char × α)) : Option α :=
  match l.find? fun p => decide (p.1 = k) with
  | some p => some p.2
  | none => none

/-- A `contributes.commands` entry of the manifest
(injectLocalization.mts:31). -/
structure CommandEntry where
  command : List Char
  title : List Char
  category : Option (List Char)
deriving DecidableEq

/-- A view entry inside a view-container grouping
(injectLocalization.mts:32). -/
structure ViewEntry where
  id : List Char
  name : List Char
  contextualTitle : Option (List Char)
deriving DecidableEq

/-- A `contributes.configuration.properties` entry
(injectLocalization.mts:34). -/
structure ConfigProp where
  description : Option (List Char)
  markdownDescription : Option (List Char)
deriving DecidableEq

/-- The manifest document as read by `injectLocalization`
(injectLocalization.mts:29-37). -/
structure PackageJson where
  commands : List CommandEntry
  views : List (List Char × List ViewEntry)
  configProperties : Option (List (List Char × ConfigProp))
deriving DecidableEq

/-- A `contributions.commands` record of the translation map
(injectLocalization.mts:19). -/
structure CommandTranslation where
  title : Option (List Char)
  category : Option (List Char)

/-- A `contributions.views` record of the translation map
(injectLocalization.mts:20). -/
structure ViewTranslation where
  name : Option (List Char)
  contextualTitle : Option (List Char)

/-- A `contributions.configuration` record of the translation map
(injectLocalization.mts:21). -/
structure ConfigTranslation where
  description : Option (List Char)
  markdownDescription : Option (List Char)

/-- The `contributions` sections of the translation map used by
`injectLocalization` (injectLocalization.mts:18-22). -/
structure LocalizationMap where
  commands : Option (List (List Char × CommandTranslation))
  views : Option (List (List Char × ViewTranslation))
  configuration : Option (List (List Char × ConfigTranslation))

/-- Body of the command loop for one found translation
(injectLocalization.mts:64-73): overwrite `title` and `category` when the
translation field is truthy, counting one change per overwritten field. -/
def applyCommandTranslation (tr : CommandTranslation) (cmd : CommandEntry) :
    CommandEntry × Nat :=
  match jsTruthy tr.title, jsTruthy tr.category with
  | some t, some c => ({ cmd with title := t, category := some c }, 2)
  | some t, none => ({ cmd with title := t }, 1)
  | none, some c => ({ cmd with category := some c }, 1)
  | none, none => (cmd, 0)

/-- Body of the view loop for one found translation
(injectLocalization.mts:82-91): overwrite `name` and `contextualTitle`
analogously. -/
def applyViewTranslation (tr : ViewTranslation) (v : ViewEntry) : ViewEntry × Nat :=
  match jsTruthy tr.name, jsTruthy tr.contextualTitle with
  | some n, some c => ({ v with name := n, contextualTitle := some c }, 2)
  | some n, none => ({ v with name := n }, 1)
  | none, some c => ({ v with contextualTitle := some c }, 1)
  | none, none => (v, 0)

/-- Body of the configuration loop for one found translation
(injectLocalization.mts:100-109): overwrite `description` only when both
the translated and the existing `description` are truthy, and likewise
`markdownDescription`; the `markdownDescription` test reads the entry
after the possible `description` update, which leaves that field intact. -/
def applyConfigTranslation (tr : ConfigTranslation) (cfg : ConfigProp) :
    ConfigProp × Nat :=
  match jsTruthy tr.description, jsTruthy cfg.description with
  | some s, some _ =>
    match jsTruthy tr.markdownDescription, jsTruthy cfg.markdownDescription with
    | some t, some _ => (⟨some s, some t⟩, 2)
    | _, _ => ({ cfg with description := some s }, 1)
  | _, _ =>
    match jsTruthy tr.markdownDescription, jsTruthy cfg.markdownDescription with
    | some t, some _ => ({ cfg with markdownDescription := some t }, 1)
    | _, _ => (cfg, 0)

/-- The command pass (injectLocalization.mts:61-75): each manifest command
is looked up by id; entries without a translation are unchanged. -/
def translateCommandList (tm : List (List Char × CommandTranslation)) :
    List CommandEntry → List CommandEntry × Nat
  | [] => ([], 0)
  | cmd :: rest =>
    let hd := match lookupAssoc cmd.command tm with
      | none => (cmd, 0)
      | some tr => applyCommandTranslation tr cmd
    let tl := translateCommandList tm rest
    (hd.1 :: tl.1, hd.2 + tl.2)

/-- The view pass over one container's view list
(injectLocalization.mts:80-92). -/
def translateViewList (tm : List (List Char × ViewTranslation)) :
    List ViewEntry → List ViewEntry × Nat
  | [] => ([], 0)
  | v :: rest =>
    let hd := match lookupAssoc v.id tm with
      | none => (v, 0)
      | some tr => applyViewTranslation tr v
    let tl := translateViewList tm rest
    (hd.1 :: tl.1, hd.2 + tl.2)

/-- The view pass over all view-container groupings
(injectLocalization.mts:79-93). -/
def translateViewContainers (tm : List (List Char × ViewTranslation)) :
    List (List Char × List ViewEntry) → List (List Char × List ViewEntry) × Nat
  | [] => ([], 0)
  | (container, vs) :: rest =>
    let hd := translateViewList tm vs
    let tl := translateViewContainers tm rest
    ((container, hd.1) :: tl.1, hd.2 + tl.2)

/-- The configuration pass over the property map
(injectLocalization.mts:98-110). -/
def translateConfigList (tm : List (List Char × ConfigTranslation)) :
    List (List Char × ConfigProp) → List (List Char × ConfigProp) × Nat
  | [] => ([], 0)
  | (key, cfg) :: rest =>
    let hd := match lookupAssoc key tm with
      | none => (cfg, 0)
      | some tr => applyConfigTranslation tr cfg
    let tl := translateConfigList tm rest
    ((key, hd.1) :: tl.1, hd.2 + tl.2)

/-- The guarded configuration pass (injectLocalization.mts:97): it runs
only when both the map's `contributions.configuration` and the manifest's
`contributes.configuration?.properties` exist. -/
def translateConfiguration (tc : Option (List (List Char × ConfigTranslation)))
    (props : Option (List (List Char × ConfigProp))) :
    Option (List (List Char × ConfigProp)) × Nat :=
  match tc, props with
  | some tm, some ps =>
    let r := translateConfigList tm ps
    (some r.1, r.2)
  | _, _ => (props, 0)

/-- Outcome of the manifest translator: either the step was skipped before
reading or writing the manifest, or a mutated manifest was written
together with the reported change count. -/
inductive InjectResult where
  | skipped : InjectResult
  | written : PackageJson → Nat → InjectResult
deriving DecidableEq

/-- Embedding of `injectLocalization()` (injectLocalization.mts:42-118):
`none` for the map models the absent `l10n/zh-cn.json` resource, on which
the function returns before touching the manifest
(injectLocalization.mts:49-52); otherwise the three passes run in order
and the mutated manifest is written with the accumulated change count. -/
def injectLocalization (l10n : Option LocalizationMap) (pkg : PackageJson) :
    InjectResult :=
  match l10n with
  | none => InjectResult.skipped
  | some m =>
    let c := match m.commands with
      | none => (pkg.commands, 0)
      | some tm => translateCommandList tm pkg.commands
    let v := match m.views with
      | none => (pkg.views, 0)
      | some tm => translateViewContainers tm pkg.views
    let cf := translateConfiguration m.configuration pkg.configProperties
    InjectResult.written ⟨c.1, v.1, cf.1⟩ (c.2 + v.2 + cf.2)

/-- The manifest document after the translator ran: unchanged when the
step was skipped. -/
def manifestAfterInject (l10n : Option LocalizationMap) (pkg : PackageJson) :
    PackageJson :=
  match injectLocalization l10n pkg with
  | InjectResult.skipped => pkg
  | InjectResult.written p _ => p

/-- The change count the translator reports: zero when the step was
skipped. -/
def reportedChanges (l10n : Option LocalizationMap) (pkg : PackageJson) : Nat :=
  match injectLocalization l10n pkg with
  | InjectResult.skipped => 0
  | InjectResult.written _ n => n

/-! Concrete translation maps and artifact texts used by the witnesses,
examples and counterexamples below. -/

/-- Map of the spec's end-to-end example: one exact entry. -/
def exampleMapC3 : L10nMap := ⟨[(("Open Changes".data), ("打开更改".data))], [], []⟩

/-- Artifact text of the spec's end-to-end example. -/
def exampleInputC3 : List Char :=
  ("const a = \"Open Changes\"; function Open_Changes()\x7b\x7d".data)

/-- Expected output of the spec's end-to-end example. -/
def exampleOutputC3 : List Char :=
  ("const a = \"打开更改\"; function Open_Changes()\x7b\x7d".data)

/-- Map for the rollback-locality example: an exact entry, a webview
pattern whose application would produce `export 翻译`, and a status-bar
pattern matching elsewhere. -/
def exampleMapC2 : L10nMap :=
  ⟨[(("Hello".data), ("你好".data))],
   [CompiledPattern.valid (replaceAll ("Foo".data) ("翻译".data))],
   [CompiledPattern.valid (replaceAll ("\"Bar\"".data) ("\"条\"".data))]⟩

/-- Input for the rollback-locality example. -/
def exampleInputC2 : List Char := ("export Foo; let a = \"Hello\"; c = \"Bar\";".data)

/-- Expected output of the rollback-locality example: the exact and
status-bar substitutions are kept, the `export 翻译` one is reverted. -/
def exampleOutputC2 : List Char := ("export Foo; let a = \"你好\"; c = \"条\";".data)

/-- Map of the idempotence counterexample: the single exact entry a → b. -/
def cexMapC5 : L10nMap := ⟨[(("a".data), ("b".data))], [], []⟩

/-- Input of the idempotence counterexample: `"a"a"`. -/
def cexInputC5 : List Char := ("\"a\"a\"".data)

/-- Map of the pre-corrupted-input counterexample: a first pattern that
removes the only CJK character and a second one that reintroduces one
after a declaration keyword. -/
def cexMapC10 : L10nMap :=
  ⟨[],
   [CompiledPattern.valid (replaceAll ("中".data) ("Z".data)),
    CompiledPattern.valid (replaceAll ("Zx".data) ("中y".data))],
   []⟩

/-- Input of the pre-corrupted-input counterexample: it contains the
keyword corruption signature before any rule runs. -/
def cexInputC10 : List Char := ("export 中x".data)

/-- Map of the pass-ordering example: each pass rewrites the previous
pass's output, so the fixed order exact → patterns A → patterns B is
observable in the result. -/
def exampleMapC4 : L10nMap :=
  ⟨[(("One".data), ("一".data))],
   [CompiledPattern.valid (replaceAll ("\"一\"".data) ("\"二\"".data))],
   [CompiledPattern.valid (replaceAll ("\"二\"".data) ("\"三\"".data))]⟩

/-- Input of the pass-ordering example. -/
def exampleInputC4 : List Char := ("x = \"One\";".data)

/-- A pattern transformer that introduces a corruption signature, used by
witnesses: it rewrites `A` to `中(`. -/
def corruptingRewrite : List Char → List Char := replaceAll ("A".data) ("中(".data)

/-- An empty translation map. -/
def emptyMap : L10nMap := ⟨[], [], []⟩

/-! Helper lemmas about the exact-match quote fold. -/

/-- The `replaced` flag of one quote iteration never resets. -/
theorem quotePass_snd_true (en zh t : List Char) (q : Char) :
    (quotePass en zh (t, true) q).2 = true := by
  unfold quotePass
  split <;> rfl

/-- The `replaced` flag of the quote fold never resets. -/
theorem quoteFold_snd_true (en zh : List Char) (qs : List Char) (t : List Char) :
    (qs.foldl (quotePass en zh) (t, true)).2 = true := by
  induction qs generalizing t with
  | nil => rfl
  | cons q qs ih =>
    rcases hq : quotePass en zh (t, true) q with ⟨x, b⟩
    have hb : b = true := by
      have h := quotePass_snd_true en zh t q
      rw [hq] at h
      exact h
    rw [List.foldl_cons, hq, hb]
    exact ih x

/-- When the quote fold reports `replaced = false`, it did not change the
text. -/
theorem quoteFold_fst_of_snd_false (en zh : List Char) (qs : List Char)
    (t : List Char) (h : (qs.foldl (quotePass en zh) (t, false)).2 = false) :
    (qs.foldl (quotePass en zh) (t, false)).1 = t := by
  induction qs generalizing t with
  | nil => rfl
  | cons q qs ih =>
    rw [List.foldl_cons] at h ⊢
    by_cases hq : replaceAll (quotedPat q en) (quotedPat q zh) t = t
    · have e : quotePass en zh (t, false) q = (t, false) := by
        unfold quotePass
        simp [hq]
      rw [e] at h ⊢
      exact ih t h
    · have e : quotePass en zh (t, false) q =
          (replaceAll (quotedPat q en) (quotedPat q zh) t, true) := by
        unfold quotePass
        simp [hq]
      rw [e, quoteFold_snd_true] at h
      simp at h

/-- When the exact attempt reports `replaced = false`, the text is
unchanged. -/
theorem exactAttempt_fst_of_snd_false (en zh t : List Char)
    (h : (exactAttempt en zh t).2 = false) : (exactAttempt en zh t).1 = t :=
  quoteFold_fst_of_snd_false en zh quoteChars t h

/-! Helper lemmas: the safety guard preserves absence of a corruption
signature across every single step, hence across the whole call. -/

/-- One exact-match entry cannot introduce a corruption signature. -/
theorem exactEntryStep_preserve (st : SubstResult) (entry : List Char × List Char)
    (h : hasChineseIdentifier st.text = false) :
    hasChineseIdentifier (exactEntryStep st entry).text = false := by
  by_cases hskip : entry.1.head? = some (chr 95)
  · simp only [exactEntryStep, if_pos hskip]
    exact h
  · by_cases h2 : (exactAttempt entry.1 entry.2 st.text).2 = true
    · by_cases h1 : hasChineseIdentifier (exactAttempt entry.1 entry.2 st.text).1 = true
      · simp only [exactEntryStep, if_neg hskip, h2, h1, h]
        simpa using h
      · simp only [Bool.not_eq_true] at h1
        simp only [exactEntryStep, if_neg hskip, h2, h1, h]
        simpa using h1
    · simp only [Bool.not_eq_true] at h2
      have hfst := exactAttempt_fst_of_snd_false entry.1 entry.2 st.text h2
      simp only [exactEntryStep, if_neg hskip, h2, hfst]
      simpa [hfst] using h

/-- One pattern rule cannot introduce a corruption signature. -/
theorem patternStep_preserve (st : SubstResult) (p : CompiledPattern)
    (h : hasChineseIdentifier st.text = false) :
    hasChineseIdentifier (patternStep st p).text = false := by
  cases p with
  | invalid => exact h
  | valid f =>
    by_cases h1 : hasChineseIdentifier (f st.text) = true
    · simp only [patternStep, h1, h]
      simpa using h
    · simp only [Bool.not_eq_true] at h1
      simp only [patternStep, h1, h]
      by_cases hne : f st.text ≠ st.text
      · simpa [hne] using h1
      · simpa [hne] using h

/-- The exact-match pass cannot introduce a corruption signature. -/
theorem exactFold_preserve (entries : List (List Char × List Char))
    (st : SubstResult) (h : hasChineseIdentifier st.text = false) :
    hasChineseIdentifier (entries.foldl exactEntryStep st).text = false := by
  induction entries generalizing st with
  | nil => exact h
  | cons e es ih => exact ih _ (exactEntryStep_preserve st e h)

/-- A pattern pass cannot introduce a corruption signature. -/
theorem patternFold_preserve (ps : List CompiledPattern) (st : SubstResult)
    (h : hasChineseIdentifier st.text = false) :
    hasChineseIdentifier (ps.foldl patternStep st).text = false := by
  induction ps generalizing st with
  | nil => exact h
  | cons p ps ih => exact ih _ (patternStep_preserve st p h)

/-- Literal replacement is the identity when the pattern's first character
does not occur in the text. -/
theorem replaceAllAux_head_notMem (q : Char) (ps rep : List Char) :
    ∀ (fuel : Nat) (s : List Char), q ∉ s → replaceAllAux (q :: ps) rep fuel s = s := by
  intro fuel
  induction fuel with
  | zero => intro s _; rfl
  | succ n ih =>
    intro s h
    cases s with
    | nil => rfl
    | cons c rest =>
      have hcq : ¬ c = q := by
        intro e
        exact h (by rw [e]; exact List.mem_cons_self q rest)
      have hsw : startsWithList (c :: rest) (q :: ps) = false := by
        simp [startsWithList, hcq]
      have hrest : q ∉ rest := fun hr => h (List.mem_cons_of_mem c hr)
      simp [replaceAllAux, hsw, ih rest hrest]

/-- A quote iteration does nothing on a text not containing that quote
character. -/
theorem quotePass_no_quote (en zh t : List Char) (q : Char) (hq : q ∉ t) :
    quotePass en zh (t, false) q = (t, false) := by
  have hr : replaceAll (quotedPat q en) (quotedPat q zh) t = t :=
    replaceAllAux_head_notMem q (en ++ [q]) (quotedPat q zh) t.length t hq
  unfold quotePass
  simp [hr]

/-- The whole quote fold does nothing on a text containing none of the
three quote characters. -/
theorem exactAttempt_no_quotes (en zh t : List Char)
    (h : ∀ q ∈ quoteChars, q ∉ t) : exactAttempt en zh t = (t, false) := by
  unfold exactAttempt
  simp only [quoteChars, List.foldl_cons, List.foldl_nil]
  rw [quotePass_no_quote en zh t (chr 34) (h _ (by simp [quoteChars])),
    quotePass_no_quote en zh t (chr 39) (h _ (by simp [quoteChars])),
    quotePass_no_quote en zh t (chr 96) (h _ (by simp [quoteChars]))]

/-- State used by the step-level witnesses: plain text `A`. -/
def stepStateA : SubstResult := ⟨("A".data), 0, 0⟩

/-- State used by the exact-match witness: the key `A` inside double
quotes. -/
def stepStateQuoted : SubstResult := ⟨("x = \"A\";".data), 0, 0⟩

/-- C1: for every input text without a corruption signature and every
loaded translation map, the `replaceStrings` output has no corruption
signature either; moreover each rule application (pattern rule or
exact-match entry) whose result newly shows a signature is reverted to
the pre-rule text and counted as a rollback, not a replacement. -/
theorem c1_no_new_corruption_signature :
    (∀ (m : L10nMap) (source : List Char),
      hasChineseIdentifier source = false →
      hasChineseIdentifier (replaceStrings m source).text = false) ∧
    (∀ (f : List Char → List Char) (st : SubstResult),
      hasChineseIdentifier (f st.text) = true →
      hasChineseIdentifier st.text = false →
      patternStep st (CompiledPattern.valid f) =
        { st with rollbacks := st.rollbacks + 1 }) ∧
    (∀ (entry : List Char × List Char) (st : SubstResult),
      ¬ entry.1.head? = some (chr 95) →
      (exactAttempt entry.1 entry.2 st.text).2 = true →
      hasChineseIdentifier (exactAttempt entry.1 entry.2 st.text).1 = true →
      hasChineseIdentifier st.text = false →
      exactEntryStep st entry = { st with rollbacks := st.rollbacks + 1 }) := by
  refine ⟨?_, ?_, ?_⟩
  · intro m source h
    exact patternFold_preserve _ _ (patternFold_preserve _ _ (exactFold_preserve _ _ h))
  · intro f st hf h
    simp [patternStep, hf, h]
  · intro entry st hskip h2 h1 h
    simp [exactEntryStep, hskip, h2, h1, h]

/-- Witness for C1 at concrete inputs: a signature-free file stays
signature-free, and both a pattern rule and an exact entry that would
introduce `中(` are reverted with a rollback count. -/
theorem c1_no_new_corruption_signature_witness :
    hasChineseIdentifier (replaceStrings exampleMapC2 ("x".data)).text = false ∧
    patternStep stepStateA (CompiledPattern.valid corruptingRewrite) =
      ⟨("A".data), 0, 1⟩ ∧
    exactEntryStep stepStateQuoted (("A".data), ("中(".data)) =
      ⟨("x = \"A\";".data), 0, 1⟩ :=
  ⟨c1_no_new_corruption_signature.1 exampleMapC2 ("x".data) (by decide),
   c1_no_new_corruption_signature.2.1 corruptingRewrite stepStateA
     (by decide) (by decide),
   c1_no_new_corruption_signature.2.2 (("A".data), ("中(".data)) stepStateQuoted
     (by decide) (by decide) (by decide) (by decide)⟩

/-- C2: rollback is local to one rule step.  On the crafted input, the
exact entry Hello → 你好 is applied, the webview pattern whose output
would contain `export 翻译` is reverted (one rollback), and the
status-bar pattern Bar → 条 is still applied to the reverted text: two
replacements survive around the one discarded rule. -/
theorem c2_rollback_is_local :
    replaceStrings exampleMapC2 exampleInputC2 = ⟨exampleOutputC2, 2, 1⟩ := by
  decide

/-- C3: the exact-match pass acts only on occurrences delimited by one of
the three quote characters — on a text containing no quote character at
all an entry changes nothing — and on the spec's end-to-end example it
replaces exactly the double-quoted occurrence, keeping the double quotes
and leaving the unquoted identifier `Open_Changes` untouched, with
replacement count 1. -/
theorem c3_quote_preservation :
    (∀ (en zh : List Char) (st : SubstResult),
      (∀ q ∈ quoteChars, q ∉ st.text) →
      exactEntryStep st (en, zh) = st) ∧
    replaceStrings exampleMapC3 exampleInputC3 = ⟨exampleOutputC3, 1, 0⟩ := by
  constructor
  · intro en zh st h
    have hA : exactAttempt en zh st.text = (st.text, false) :=
      exactAttempt_no_quotes en zh st.text h
    by_cases hskip : (en, zh).1.head? = some (chr 95)
    · simp [exactEntryStep, hskip]
    · simp [exactEntryStep, hskip, hA]
  · decide

/-- Witness for C3: a quoteless text is untouched by an exact entry. -/
theorem c3_quote_preservation_witness :
    exactEntryStep stepStateA (("A".data), ("中".data)) = stepStateA :=
  c3_quote_preservation.1 ("A".data) ("中".data) stepStateA (by decide)

/-- Output of the pass-ordering example after all three chained passes. -/
def exampleOutputC4 : List Char := ("x = \"三\";".data)

/-- C4: `replaceStrings` is exactly the sequential composition of the
exact-match pass, then the `webviews.patterns` pass, then the
`statusBar.patterns` pass, each consuming the previous pass's output; on
the chained example each pass rewrites the previous pass's result
(One → 一 → 二 → 三), so the final text shows the fixed order. -/
theorem c4_pass_ordering :
    (∀ (m : L10nMap) (source : List Char),
      replaceStrings m source =
        patternPassB m (patternPassA m (exactPass m ⟨source, 0, 0⟩))) ∧
    replaceStrings exampleMapC4 exampleInputC4 = ⟨exampleOutputC4, 3, 0⟩ := by
  exact ⟨fun m source => rfl, by decide⟩

/-- Counterexample to C5: the engine is not idempotent.  With the single
exact entry a → b and input `"a"a"`, one run yields `"b"a"`, and a second
run on that output yields `"b"b"` — the replacement's closing quote and
the following text form a fresh quoted match that the first run's
left-to-right scan could not see. -/
theorem c5_idempotence_counterexample :
    (replaceStrings cexMapC5 (replaceStrings cexMapC5 cexInputC5).text).text ≠
      (replaceStrings cexMapC5 cexInputC5).text := by
  decide

/-- C5 (amended): the engine is deterministic but not idempotent in
general; a second run yields the same text only when the first run's
output is a fixed point — in particular whenever the single run already
changed nothing. -/
theorem c5_idempotent_on_fixed_points (m : L10nMap) (s : List Char)
    (h : (replaceStrings m s).text = s) :
    (replaceStrings m (replaceStrings m s).text).text =
      (replaceStrings m s).text := by
  rw [h]
  exact h

/-- Witness for the amended C5: on a text the map leaves unchanged, the
second run changes nothing either. -/
theorem c5_idempotent_on_fixed_points_witness :
    (replaceStrings emptyMap (replaceStrings emptyMap ("x".data)).text).text =
      (replaceStrings emptyMap ("x".data)).text :=
  c5_idempotent_on_fixed_points emptyMap ("x".data) (by decide)

/-- C8: a rule whose `match` field fails to compile is caught and skipped
with all state intact — the text, replacement count and rollback count
carried into the next rule equal those before the malformed rule — and
the pass simply continues with the remaining rules. -/
theorem c8_malformed_pattern_skipped :
    (∀ (st : SubstResult), patternStep st CompiledPattern.invalid = st) ∧
    (∀ (rest : List CompiledPattern) (st : SubstResult),
      (CompiledPattern.invalid :: rest).foldl patternStep st =
        rest.foldl patternStep st) :=
  ⟨fun _ => rfl, fun _ _ => rfl⟩

/-- C9: an asset whose filename does not end in `.js` is skipped by the
`processAssets` hook: no rule is applied and its content is returned
byte-identical. -/
theorem c9_ineligible_filename_passthrough (m : L10nMap)
    (filename content : List Char) (h : isEligibleAsset filename = false) :
    processAsset m filename content = content := by
  simp [processAsset, h]

/-- Witness for C9: a `.css` filename is ineligible and passes through. -/
theorem c9_ineligible_filename_passthrough_witness :
    isEligibleAsset ("style.css".data) = false ∧
    processAsset exampleMapC2 ("style.css".data) ("export Foo;".data) =
      ("export Foo;".data) :=
  ⟨by decide,
   c9_ineligible_filename_passthrough exampleMapC2 ("style.css".data)
     ("export Foo;".data) (by decide)⟩

/-- Counterexample to C10: a pre-corrupted input does not disable the
guard for the whole file.  The input `export 中x` carries a signature, the
first pattern removes it (中 → Z, accepted), and the second pattern
(Zx → 中y) is then rolled back because the signature is newly present
relative to the text just before that rule — so a rollback does occur. -/
theorem c10_precorrupted_counterexample :
    hasChineseIdentifier cexInputC10 = true ∧
    (replaceStrings cexMapC10 cexInputC10).rollbacks = 1 := by
  constructor
  · decide
  · decide

/-- C10 (amended): the guard compares against the text immediately before
the current rule, not the original input.  Hence a rule applied while the
current text still contains a signature is never rolled back — it is
accepted, and counted as a replacement when it changed the text — but the
protection re-arms as soon as some rule removes every signature. -/
theorem c10_guard_disabled_while_corrupted :
    (∀ (p : CompiledPattern) (st : SubstResult),
      hasChineseIdentifier st.text = true →
      (patternStep st p).rollbacks = st.rollbacks) ∧
    (∀ (entry : List Char × List Char) (st : SubstResult),
      hasChineseIdentifier st.text = true →
      (exactEntryStep st entry).rollbacks = st.rollbacks) ∧
    (∀ (f : List Char → List Char) (st : SubstResult),
      hasChineseIdentifier st.text = true →
      f st.text ≠ st.text →
      patternStep st (CompiledPattern.valid f) =
        { st with
            text := f st.text
            replacements := st.replacements + 1 }) := by
  refine ⟨?_, ?_, ?_⟩
  · intro p st h
    cases p with
    | invalid => rfl
    | valid f =>
      simp only [patternStep, h]
      by_cases hne : f st.text ≠ st.text
      · simp [hne]
      · simp [hne]
  · intro entry st h
    by_cases hskip : entry.1.head? = some (chr 95)
    · simp [exactEntryStep, hskip]
    · by_cases h2 : (exactAttempt entry.1 entry.2 st.text).2 = true
      · simp [exactEntryStep, hskip, h2, h]
      · simp only [Bool.not_eq_true] at h2
        simp [exactEntryStep, hskip, h2]
  · intro f st h hne
    simp [patternStep, h, hne]

/-- State used by the C10 witness: text that already carries the keyword
signature. -/
def corruptedState : SubstResult := ⟨("export 中x".data), 0, 0⟩

/-- Witness for the amended C10: on a text already carrying a signature, a
rule that rewrites it (even keeping a signature) is accepted and counted,
with no rollback. -/
theorem c10_guard_disabled_while_corrupted_witness :
    (patternStep corruptedState
      (CompiledPattern.valid (replaceAll ("中x".data) ("中y".data)))).rollbacks = 0 ∧
    patternStep corruptedState
      (CompiledPattern.valid (replaceAll ("中x".data) ("中y".data))) =
      ⟨("export 中y".data), 1, 0⟩ := by
  constructor
  · exact c10_guard_disabled_while_corrupted.1
      (CompiledPattern.valid (replaceAll ("中x".data) ("中y".data))) corruptedState
      (by decide)
  · have h := c10_guard_disabled_while_corrupted.2.2
      (replaceAll ("中x".data) ("中y".data)) corruptedState (by decide) (by decide)
    rw [h]
    decide

/-! Helper lemmas about the configuration field gating. -/

/-- When either the translated or the existing `description` is falsy, the
`description` field is left unchanged. -/
theorem applyConfig_desc_unchanged (tr : ConfigTranslation) (cfg : ConfigProp)
    (h : jsTruthy tr.description = none ∨ jsTruthy cfg.description = none) :
    (applyConfigTranslation tr cfg).1.description = cfg.description := by
  rcases htd : jsTruthy tr.description with _ | d <;>
    rcases hcd : jsTruthy cfg.description with _ | cd <;>
      rcases htm : jsTruthy tr.markdownDescription with _ | t <;>
        rcases hcm : jsTruthy cfg.markdownDescription with _ | c <;>
          simp [applyConfigTranslation, htd, hcd, htm, hcm] <;>
            (rcases h with h | h
             · rw [htd] at h; cases h
             · rw [hcd] at h; cases h)

/-- When either the translated or the existing `markdownDescription` is
falsy, the `markdownDescription` field is left unchanged. -/
theorem applyConfig_md_unchanged (tr : ConfigTranslation) (cfg : ConfigProp)
    (h : jsTruthy tr.markdownDescription = none ∨
      jsTruthy cfg.markdownDescription = none) :
    (applyConfigTranslation tr cfg).1.markdownDescription =
      cfg.markdownDescription := by
  rcases htd : jsTruthy tr.description with _ | d <;>
    rcases hcd : jsTruthy cfg.description with _ | cd <;>
      rcases htm : jsTruthy tr.markdownDescription with _ | t <;>
        rcases hcm : jsTruthy cfg.markdownDescription with _ | c <;>
          simp [applyConfigTranslation, htd, hcd, htm, hcm] <;>
            (rcases h with h | h
             · rw [htm] at h; cases h
             · rw [hcm] at h; cases h)

/-- When all four fields are truthy, both fields are overwritten and two
changes are counted. -/
theorem applyConfig_both_updated (tr : ConfigTranslation) (cfg : ConfigProp)
    (d cd t c : List Char) (h1 : jsTruthy tr.description = some d)
    (h2 : jsTruthy cfg.description = some cd)
    (h3 : jsTruthy tr.markdownDescription = some t)
    (h4 : jsTruthy cfg.markdownDescription = some c) :
    applyConfigTranslation tr cfg = (⟨some d, some t⟩, 2) := by
  simp [applyConfigTranslation, h1, h2, h3, h4]

/-- C6: the configuration pass overwrites `description` only when the
translation supplies a truthy one and the entry's own `description` is
truthy (non-empty), and `markdownDescription` likewise; an entry without
`markdownDescription` never gains one even if the map supplies one; an
entry with both truthy fields and truthy translations for both gets both
overwritten (two counted changes); and the pass applies this per-entry
rule to every property key of the manifest. -/
theorem c6_manifest_field_gating :
    (∀ (tr : ConfigTranslation) (cfg : ConfigProp),
      ((applyConfigTranslation tr cfg).1.description ≠ cfg.description →
        jsTruthy tr.description ≠ none ∧ jsTruthy cfg.description ≠ none) ∧
      ((applyConfigTranslation tr cfg).1.markdownDescription ≠
          cfg.markdownDescription →
        jsTruthy tr.markdownDescription ≠ none ∧
          jsTruthy cfg.markdownDescription ≠ none) ∧
      (cfg.markdownDescription = none →
        (applyConfigTranslation tr cfg).1.markdownDescription = none) ∧
      (∀ (d t : List Char), jsTruthy tr.description = some d →
        jsTruthy tr.markdownDescription = some t →
        jsTruthy cfg.description ≠ none →
        jsTruthy cfg.markdownDescription ≠ none →
        applyConfigTranslation tr cfg = (⟨some d, some t⟩, 2))) ∧
    (∀ (tm : List (List Char × ConfigTranslation))
        (ps : List (List Char × ConfigProp)),
      (translateConfigList tm ps).1 = ps.map fun p =>
        (p.1, match lookupAssoc p.1 tm with
              | none => p.2
              | some tr => (applyConfigTranslation tr p.2).1)) := by
  constructor
  · intro tr cfg
    refine ⟨fun hne => ⟨?_, ?_⟩, fun hne => ⟨?_, ?_⟩, ?_, ?_⟩
    · intro h0
      exact hne (applyConfig_desc_unchanged tr cfg (Or.inl h0))
    · intro h0
      exact hne (applyConfig_desc_unchanged tr cfg (Or.inr h0))
    · intro h0
      exact hne (applyConfig_md_unchanged tr cfg (Or.inl h0))
    · intro h0
      exact hne (applyConfig_md_unchanged tr cfg (Or.inr h0))
    · intro hnone
      have h0 : jsTruthy cfg.markdownDescription = none := by
        rw [hnone]
        rfl
      rw [applyConfig_md_unchanged tr cfg (Or.inr h0)]
      exact hnone
    · intro d t h1 h3 h2 h4
      rcases hcd : jsTruthy cfg.description with _ | cd
      · exact absurd hcd h2
      · rcases hcm : jsTruthy cfg.markdownDescription with _ | c
        · exact absurd hcm h4
        · exact applyConfig_both_updated tr cfg d cd t c h1 hcd h3 hcm
  · intro tm ps
    induction ps with
    | nil => rfl
    | cons p rest ih =>
      rcases p with ⟨k, cfg⟩
      rcases hk : lookupAssoc k tm with _ | tr <;>
        simp [translateConfigList, hk, ih]

/-- A translation record supplying both description fields. -/
def trBothFields : ConfigTranslation := ⟨some ("描述".data), some ("说明".data)⟩

/-- A manifest property with both description fields present and
non-empty. -/
def cfgBothFields : ConfigProp := ⟨some ("desc".data), some ("md".data)⟩

/-- A manifest property without a `markdownDescription`. -/
def cfgNoMd : ConfigProp := ⟨some ("desc".data), none⟩

/-- Witness for C6: with both fields present both get overwritten with two
counted changes, and an entry lacking `markdownDescription` does not gain
one from the same translation record. -/
theorem c6_manifest_field_gating_witness :
    applyConfigTranslation trBothFields cfgBothFields =
      (⟨some ("描述".data), some ("说明".data)⟩, 2) ∧
    (applyConfigTranslation trBothFields cfgNoMd).1.markdownDescription = none :=
  ⟨(c6_manifest_field_gating.1 trBothFields cfgBothFields).2.2.2 ("描述".data)
      ("说明".data) (by decide) (by decide) (by decide) (by decide),
   (c6_manifest_field_gating.1 trBothFields cfgNoMd).2.2.1 rfl⟩

/-- C7: with the translation-map resource absent the Manifest Translator
returns before reading or writing: the outcome is the skip outcome, the
manifest document is unchanged, and zero changes are reported. -/
theorem c7_missing_map_noop (pkg : PackageJson) :
    injectLocalization none pkg = InjectResult.skipped ∧
    manifestAfterInject none pkg = pkg ∧
    reportedChanges none pkg = 0 :=
  ⟨rfl, rfl, rfl⟩
